import Mathlib

/-!
Shallow embedding of the core of `cisonblockchain` (a CIS Controls v8
maturity-assessment tool with blockchain attestation) and proofs about it.

Python floats are modelled as `Rat`: every score produced by the scoring
engine is a dyadic rational (0, 1/2, 1 and means thereof) and every
threshold literal in the source is an exact decimal, so the comparison
logic is faithfully captured by exact rational arithmetic.
-/

namespace CIS

/-- One entry of the safeguard catalog (`FALLBACK` items / entries of
`cis_v8_safeguards.json` in `app.py`): fields `control`, `id`, `ig`,
`title`, `control_name`. -/
structure Safeguard where
  control : Int
  id : String
  ig : String
  title : String
  control_name : String
deriving Repr, DecidableEq

/-- `score_answer` from `app.py`: Implementado → 1.0, Parcial → 0.5,
"Não se aplica" → 1.0 (not penalized), anything else → 0.0. -/
def score_answer (a : String) : Rat :=
  if a = "Implementado" then 1.0
  else if a = "Parcial" then 0.5
  else if a = "Não se aplica" then 1.0
  else 0.0

/-- `cmmi_level_from_igs` from `app.py`: the ordered rule table mapping the
three implementation-group percentages to a CMMI level. -/
def cmmi_level_from_igs (p_ig1 p_ig2 p_ig3 : Rat) : Nat :=
  if p_ig1 < 0.2 ∧ p_ig2 < 0.2 then 1
  else if p_ig1 ≥ 0.80 ∧ p_ig2 < 0.40 then 2
  else if p_ig1 ≥ 0.80 ∧ p_ig2 ≥ 0.50 ∧ p_ig3 < 0.40 then 3
  else if p_ig1 ≥ 0.80 ∧ p_ig2 ≥ 0.70 ∧ p_ig3 ≥ 0.40 then
    (if p_ig1 ≥ 0.90 ∧ p_ig2 ≥ 0.85 ∧ p_ig3 ≥ 0.70 then 5 else 4)
  else if p_ig1 ≥ 0.5 then 2 else 1

/-- The per-control accumulator built by the `by_control` defaultdict in
`compute_maturity`: control name (last writer wins) and the safeguard ids
collected per implementation group, in insertion order. -/
structure Bucket where
  name : String
  ig1 : List String
  ig2 : List String
  ig3 : List String
deriving Repr, DecidableEq

/-- Adding one safeguard to a control's bucket
(`by_control[s["control"]]["name"] = s["control_name"]` followed by
`by_control[s["control"]][s["ig"]].append(s["id"])`).  An `ig` value other
than IG1/IG2/IG3 raises `KeyError` in Python, modelled as `none`. -/
def bucketAdd (b : Bucket) (s : Safeguard) : Option Bucket :=
  let b := { b with name := s.control_name }
  if s.ig = "IG1" then some { b with ig1 := b.ig1 ++ [s.id] }
  else if s.ig = "IG2" then some { b with ig2 := b.ig2 ++ [s.id] }
  else if s.ig = "IG3" then some { b with ig3 := b.ig3 ++ [s.id] }
  else none

/-- Insert one safeguard into the association list of control buckets,
preserving the `defaultdict` key insertion order (a fresh control is
appended at the end, starting from the default bucket). -/
def insertSafeguard : List (Int × Bucket) → Safeguard → Option (List (Int × Bucket))
  | [], s => (bucketAdd ⟨"", [], [], []⟩ s).map (fun b => [(s.control, b)])
  | (c, b) :: rest, s =>
    if c = s.control then (bucketAdd b s).map (fun b2 => (c, b2) :: rest)
    else (insertSafeguard rest s).map (fun r => (c, b) :: r)

/-- The grouping loop at the top of `compute_maturity`. -/
def group_by_control (safeguards : List Safeguard) : Option (List (Int × Bucket)) :=
  safeguards.foldlM insertSafeguard []

/-- The score list built for one implementation-group bucket:
`respostas_by_id.get(sid, "Não implementado")` then `score_answer`. -/
def scoresOf (respostas_by_id : String → Option String) (ids : List String) : List Rat :=
  ids.map (fun sid => score_answer ((respostas_by_id sid).getD "Não implementado"))

/-- The per-(control, implementation group) percentage computed inside
`compute_maturity`: 0.0 for an empty bucket, otherwise
`sum(scores) / len(scores)`. -/
def igPerc (respostas_by_id : String → Option String) (ids : List String) : Rat :=
  if ids = [] then 0.0
  else (scoresOf respostas_by_id ids).sum / (ids.length : Rat)

/-- One value of the `maturity` dict produced by `compute_maturity`. -/
structure ControlEntry where
  name : String
  ig1 : Rat
  ig2 : Rat
  ig3 : Rat
  cmmi : Nat
deriving Repr, DecidableEq

/-- The per-control body of the main loop of `compute_maturity`. -/
def entryOf (respostas_by_id : String → Option String) (b : Bucket) : ControlEntry :=
  let p1 := igPerc respostas_by_id b.ig1
  let p2 := igPerc respostas_by_id b.ig2
  let p3 := igPerc respostas_by_id b.ig3
  { name := b.name, ig1 := p1, ig2 := p2, ig3 := p3,
    cmmi := cmmi_level_from_igs p1 p2 p3 }

/-- `compute_maturity` from `app.py`: groups the safeguards by control,
computes the three percentages and the CMMI level per control, and the
average level (`0.0` when there are no controls).  `none` models the
`KeyError` Python raises on a safeguard whose `ig` field is not one of
IG1/IG2/IG3. -/
def compute_maturity (respostas_by_id : String → Option String)
    (safeguards : List Safeguard) :
    Option (List (Int × ControlEntry) × Rat) :=
  (group_by_control safeguards).map (fun bc =>
    let maturity := bc.map (fun p => (p.1, entryOf respostas_by_id p.2))
    let all_levels : List Rat := maturity.map (fun p => (p.2.cmmi : Rat))
    (maturity, if all_levels = [] then 0.0 else all_levels.sum / (all_levels.length : Rat)))

/-- Spec-side copy of the ordered level rule table, written from the spec's
words (rules 1-5, first match wins), to be compared with the source's
`cmmi_level_from_igs`. -/
def spec_rule_table (p1 p2 p3 : Rat) : Nat :=
  if p1 < 0.20 ∧ p2 < 0.20 then 1
  else if p1 ≥ 0.80 ∧ p2 < 0.40 then 2
  else if p1 ≥ 0.80 ∧ p2 ≥ 0.50 ∧ p3 < 0.40 then 3
  else if p1 ≥ 0.80 ∧ p2 ≥ 0.70 ∧ p3 ≥ 0.40 then
    (if p1 ≥ 0.90 ∧ p2 ≥ 0.85 ∧ p3 ≥ 0.70 then 5 else 4)
  else if p1 ≥ 0.50 then 2 else 1

/-- Spec-side per-safeguard score, written from the spec's words:
Implemented → 1.0; Partial → 0.5; NotApplicable → 1.0; NotImplemented or
any other value → 0.0 (status strings are the repository's literals). -/
def spec_score (a : String) : Rat :=
  if a = "Implementado" then 1.0
  else if a = "Parcial" then 0.5
  else if a = "Não se aplica" then 1.0
  else 0.0

/-- Spec-side per-(control, implementation group) percentage, written from
the spec's words: the arithmetic mean of the member safeguard scores, a
missing answer scoring 0.0, and 0.0 for an empty bucket. -/
def spec_ig_percent (answers : String → Option String) (ids : List String) : Rat :=
  if ids.isEmpty then 0.0
  else (ids.map (fun sid =>
          match answers sid with
          | none => (0.0 : Rat)
          | some a => spec_score a)).sum / (ids.length : Rat)

/-- Concrete answers of the spec's table-driven example:
1.1 → Implementado, 1.2 → Parcial, 1.3 → Não implementado. -/
def ansEx : String → Option String := fun s =>
  if s = "1.1" then some "Implementado"
  else if s = "1.2" then some "Parcial"
  else if s = "1.3" then some "Não implementado"
  else none

/-- The three control-1 safeguards of the embedded `FALLBACK` catalog. -/
def sgsEx : List Safeguard :=
  [⟨1, "1.1", "IG1", "Inventário de ativos de hardware mantido",
    "1 — Inventory and Control of Enterprise Assets"⟩,
   ⟨1, "1.2", "IG2", "Rastrear ativos temporários ou remotos",
    "1 — Inventory and Control of Enterprise Assets"⟩,
   ⟨1, "1.3", "IG3", "Automatizar descoberta de ativos",
    "1 — Inventory and Control of Enterprise Assets"⟩]

/-- The bucket `compute_maturity` builds for control 1 of `sgsEx`. -/
def bEx : Bucket :=
  ⟨"1 — Inventory and Control of Enterprise Assets", ["1.1"], ["1.2"], ["1.3"]⟩

/-- The grouped catalog for `sgsEx`. -/
def bcEx : List (Int × Bucket) := [(1, bEx)]

/-- The maturity entry for control 1 of the example: ig1 = 1, ig2 = 1/2,
ig3 = 0, level 3 (the spec's rule-3 example). -/
def entryEx : ControlEntry :=
  ⟨"1 — Inventory and Control of Enterprise Assets", 1, 1/2, 0, 3⟩

/-- Lowercase hexadecimal digit character for a value below 16 (the
alphabet used by Python's `hexdigest`/`bytes.hex`). -/
def hexDigitChar (n : Nat) : Char :=
  if n < 10 then Char.ofNat (48 + n) else Char.ofNat (87 + n)

/-- One byte rendered as two lowercase hex characters. -/
def byteToHex (b : Nat) : List Char := [hexDigitChar (b / 16), hexDigitChar (b % 16)]

/-- Python's `hexdigest()` / `bytes.hex()` on a digest given as a list of
bytes. -/
def hexdigest (digest : List Nat) : String := ⟨(digest.map byteToHex).flatten⟩

/-- `sha256_hex` from `app.py`: `"0x" + hashlib.sha256(data).hexdigest()`,
with the external `hashlib.sha256` digest function passed in at its
library boundary (it returns a 32-byte digest). -/
def sha256_hex (sha256 : List Nat → List Nat) (data : List Nat) : String :=
  "0x" ++ hexdigest (sha256 data)

/-- `keccak256_hex` from `app.py`: `Web3.keccak(data).hex()`, with the
external `Web3.keccak` digest function passed in at its library boundary
(a 32-byte digest; `HexBytes.hex()` renders `"0x"` followed by the
lowercase hex of the digest). -/
def keccak256_hex (keccak : List Nat → List Nat) (data : List Nat) : String :=
  "0x" ++ hexdigest (keccak data)

/-- A character is a lowercase hexadecimal digit (0-9 or a-f). -/
def isLowerHex (c : Char) : Bool :=
  (48 ≤ c.toNat && c.toNat ≤ 57) || (97 ≤ c.toNat && c.toNat ≤ 102)

/-- ASCII whitespace removed by Python's `str.strip()`. -/
def isPyWs (c : Char) : Bool :=
  c = ' ' || c = '\t' || c = '\n' || c = '\r' || c.toNat = 11 || c.toNat = 12

/-- Python `h.strip()`: drop whitespace from both ends. -/
def pyStrip (l : List Char) : List Char :=
  ((l.dropWhile isPyWs).reverse.dropWhile isPyWs).reverse

/-- Python `h.replace(" ", "").replace("\n", "").replace("\r", "")`. -/
def removeWs (l : List Char) : List Char :=
  l.filter (fun c => !(c = ' ' || c = '\n' || c = '\r'))

/-- A character stripped by Python `h.strip("'\"")`. -/
def isQuote (c : Char) : Bool := c = '\'' || c = '"'

/-- Python `h.strip("'\"")`: drop quotes from both ends. -/
def stripQuotes (l : List Char) : List Char :=
  ((l.dropWhile isQuote).reverse.dropWhile isQuote).reverse

/-- A character matched by the `[0-9a-fA-F]` class of the regex in
`normalize_hash`. -/
def isHexChar (c : Char) : Bool :=
  (48 ≤ c.toNat && c.toNat ≤ 57) || (97 ≤ c.toNat && c.toNat ≤ 102) ||
  (65 ≤ c.toNat && c.toNat ≤ 70)

/-- The content `normalize_hash` is left with after NFKC normalization
(the external `unicodedata.normalize("NFKC", ·)` pass is a parameter),
whitespace removal, quote stripping, and removal of an optional 0x/0X
prefix. -/
def hashCore (nfkc : List Char → List Char) (h : List Char) : List Char :=
  let h1 := pyStrip (nfkc h)
  let h2 := stripQuotes (removeWs h1)
  if h2.take 2 = ['0', 'x'] ∨ h2.take 2 = ['0', 'X'] then h2.drop 2 else h2

/-- `normalize_hash` from `app.py`: `None` on a falsy input, otherwise
NFKC-normalize, strip, remove spaces and newlines, strip quotes, drop an
optional 0x/0X prefix, and return `"0x" + h.lower()` exactly when the rest
fullmatches `[0-9a-fA-F]{64}`, else `None`. -/
def normalize_hash (nfkc : List Char → List Char) (h : List Char) : Option (List Char) :=
  if h = [] then none
  else
    let core := hashCore nfkc h
    if core.length = 64 ∧ core.all isHexChar then
      some ('0' :: 'x' :: core.map Char.toLower)
    else none

/-- `needle` occurs as a contiguous substring of `hay` (Python's `in` on
strings). -/
def containsSub (needle hay : List Char) : Bool :=
  hay.tails.any (fun t => needle.isPrefixOf t)

/-- The duplicate-registration detector shared by the three register
handlers in `app.py`: `("Hash ja registrado" in msg) or
("execution reverted" in msg and "Hash" in msg and "registrado" in msg)`. -/
def isAlreadyRegisteredMsg (msg : String) : Bool :=
  containsSub "Hash ja registrado".data msg.data ||
  (containsSub "execution reverted".data msg.data &&
   containsSub "Hash".data msg.data &&
   containsSub "registrado".data msg.data)

/-- What a register button handler in `app.py` surfaces to the user. -/
inductive RegisterOutcome where
  | success (tx : String) (blockNumber : Nat)
  | alreadyRegisteredWarning
  | genericFailure (msg : String)
deriving Repr, DecidableEq

/-- The try/except wrapped around `register_hash` /
`register_hash_with_cid` in `app.py`: success shows the block, an
exception whose text matches the duplicate patterns is downgraded to the
already-registered warning, any other exception is surfaced as a generic
failure. -/
def handle_register (result : Except String (String × Nat)) : RegisterOutcome :=
  match result with
  | .ok (tx, b) => .success tx b
  | .error msg =>
    if isAlreadyRegisteredMsg msg then .alreadyRegisteredWarning
    else .genericFailure msg

/-- Modelled from the spec: the revert reason the ledger contract produces
when the fingerprint is already registered.  The Solidity contract is not
under `src/`; the spec says the adapter's failure signal for a duplicate
is pattern-matched on 'Hash ja registrado'. -/
def duplicateRevertMsg : String := "execution reverted: Hash ja registrado"

/-- The three IPFS providers `ipfs_upload_json_auto` can choose from. -/
inductive Provider where
  | pinata
  | nftStorage
  | web3Storage
deriving Repr, DecidableEq

/-- The provider configuration read from the environment at module load
(`PINATA_JWT`, `NFT_STORAGE_TOKEN`, `WEB3_STORAGE_TOKEN`, already
stripped). -/
structure IpfsEnv where
  pinata_jwt : String
  nft_storage_token : String
  web3_storage_token : String

/-- The error raised when no provider is configured. -/
def no_provider_msg : String :=
  "Nenhum provedor IPFS configurado. Defina PINATA_JWT (recomendado) ou NFT_STORAGE_TOKEN (JWT clássico) ou WEB3_STORAGE_TOKEN."

/-- `ipfs_upload_json_auto` from `app.py`, with each provider's HTTP
upload (returning a CID or failing) passed in at the `requests` boundary:
Pinata when `PINATA_JWT` is truthy, else NFT.Storage when its token is
truthy and starts with "eyJ", else Web3.Storage when its token is truthy,
else an error; the selected provider's result is returned as
`(cid, "ipfs://cid", provider_name)` and its failure propagates. -/
def ipfs_upload_json_auto (env : IpfsEnv) (call : Provider → Except String String) :
    Except String (String × String × String) :=
  if env.pinata_jwt ≠ "" then
    (call .pinata).map (fun cid => (cid, "ipfs://" ++ cid, "pinata"))
  else if env.nft_storage_token ≠ "" ∧ env.nft_storage_token.startsWith "eyJ" = true then
    (call .nftStorage).map (fun cid => (cid, "ipfs://" ++ cid, "nft.storage"))
  else if env.web3_storage_token ≠ "" then
    (call .web3Storage).map (fun cid => (cid, "ipfs://" ++ cid, "web3.storage"))
  else .error no_provider_msg

/-- Spec-side provider choice, written from the spec's words: the fixed
precedence order Pinata, NFT.Storage, Web3.Storage, selected by
configuration presence only. -/
def spec_select (env : IpfsEnv) : Option Provider :=
  if env.pinata_jwt ≠ "" then some .pinata
  else if env.nft_storage_token ≠ "" ∧ env.nft_storage_token.startsWith "eyJ" = true then
    some .nftStorage
  else if env.web3_storage_token ≠ "" then some .web3Storage
  else none

/-- The provider name string `ipfs_upload_json_auto` reports. -/
def provider_label : Provider → String
  | .pinata => "pinata"
  | .nftStorage => "nft.storage"
  | .web3Storage => "web3.storage"

/-- A JSON value as Python builds it for the report dict: object fields
keep their insertion order. -/
inductive JVal where
  | obj (fields : List (String × JVal))
  | arr (items : List JVal)
  | str (text : String)
  | num (value : Rat)
  | bool (flag : Bool)
  | null

/-- Character rendering of a JSON number; abstracts CPython's
deterministic number repr (for canonicity only its functionality in the
value matters). -/
def renderNum (q : Rat) : List Char := (toString q).data

/-- `json.dumps` escaping of one character with `ensure_ascii=False`:
escape the quote, the backslash and control characters, pass everything
else through verbatim. -/
def escapeChar (c : Char) : List Char :=
  if c = '"' then ['\\', '"']
  else if c = '\\' then ['\\', '\\']
  else if c = '\n' then ['\\', 'n']
  else if c = '\r' then ['\\', 'r']
  else if c = '\t' then ['\\', 't']
  else if c.toNat = 8 then ['\\', 'b']
  else if c.toNat = 12 then ['\\', 'f']
  else if c.toNat < 32 then '\\' :: 'u' :: '0' :: '0' :: byteToHex c.toNat
  else [c]

/-- A JSON string literal: quote, escaped characters, quote. -/
def encodeJString (s : String) : List Char :=
  '"' :: ((s.data.map escapeChar).flatten ++ ['"'])

/-- The key ordering applied by `sort_keys=True`: fields sorted by key
(code-point order on strings, Python's `<` on `str`). -/
def sortFields (fs : List (String × JVal)) : List (String × JVal) :=
  fs.mergeSort (fun a b => decide (a.1 ≤ b.1))

mutual
/-- Sort every object's fields by key, recursively: the field order
`sort_keys=True` makes `json.dumps` emit. -/
def canonSort : JVal → JVal
  | .null => .null
  | .bool b => .bool b
  | .num q => .num q
  | .str s => .str s
  | .arr xs => .arr (canonList xs)
  | .obj fs => .obj (sortFields (canonFields fs))

/-- `canonSort` mapped over an array's items. -/
def canonList : List JVal → List JVal
  | [] => []
  | x :: xs => canonSort x :: canonList xs

/-- `canonSort` mapped over an object's field values. -/
def canonFields : List (String × JVal) → List (String × JVal)
  | [] => []
  | (k, v) :: fs => (k, canonSort v) :: canonFields fs
end

mutual
/-- Serialization with `separators=(",", ":")`: no insignificant
whitespace, fields emitted in list order. -/
def dumpVal : JVal → List Char
  | .null => "null".data
  | .bool true => "true".data
  | .bool false => "false".data
  | .num q => renderNum q
  | .str s => encodeJString s
  | .arr xs => '[' :: (dumpItems xs ++ [']'])
  | .obj fs => '\x7b' :: (dumpFields fs ++ ['\x7d'])

/-- Comma-separated serialization of array items. -/
def dumpItems : List JVal → List Char
  | [] => []
  | [x] => dumpVal x
  | x :: y :: rest => dumpVal x ++ ',' :: dumpItems (y :: rest)

/-- Comma-separated serialization of `key:value` fields. -/
def dumpFields : List (String × JVal) → List Char
  | [] => []
  | [(k, v)] => encodeJString k ++ ':' :: dumpVal v
  | (k, v) :: q :: rest =>
    (encodeJString k ++ ':' :: dumpVal v) ++ ',' :: dumpFields (q :: rest)
end

/-- `json.dumps(report, ensure_ascii=False, sort_keys=True,
separators=(",", ":"))` from `app.py` (and `ipfs_upload.py`): the
canonical serialization, keys sorted at every object level. -/
def json_dumps (v : JVal) : List Char := dumpVal (canonSort v)

/-- UTF-8 encoding of one character (`str.encode("utf-8")`). -/
def utf8Bytes (c : Char) : List Nat :=
  let n := c.toNat
  if n < 128 then [n]
  else if n < 2048 then [192 + n / 64, 128 + n % 64]
  else if n < 65536 then [224 + n / 4096, 128 + (n / 64) % 64, 128 + n % 64]
  else [240 + n / 262144, 128 + (n / 4096) % 64, 128 + (n / 64) % 64, 128 + n % 64]

/-- UTF-8 encoding of a character list (`str.encode("utf-8")`). -/
def utf8Encode (l : List Char) : List Nat := (l.map utf8Bytes).flatten

/-- Concrete report value: two fields inserted in the order b, a. -/
def fsEx1 : List (String × JVal) := [("b", .num 1), ("a", .str "x")]

/-- The same logical content with the fields inserted in the order a, b. -/
def fsEx2 : List (String × JVal) := [("a", .str "x"), ("b", .num 1)]

/-- `canonFields` is a map over the field values. -/
lemma canonFields_eq_map (fs : List (String × JVal)) :
    canonFields fs = fs.map (fun p => (p.1, canonSort p.2)) := by
  induction fs with
  | nil => rfl
  | cons p fs ih =>
    obtain ⟨k, v⟩ := p
    simp [canonFields, ih]

/-- `sortFields` sorts by key. -/
lemma sortFields_sorted (fs : List (String × JVal)) :
    (sortFields fs).Pairwise (fun a b => a.1 ≤ b.1) := by
  have h := @List.sorted_mergeSort (String × JVal)
    (fun a b : String × JVal => decide (a.1 ≤ b.1))
    (fun a b c h1 h2 => by
      simp only [decide_eq_true_eq] at h1 h2 ⊢
      exact le_trans h1 h2)
    (fun a b => by
      simpa using le_total a.1 b.1) fs
  unfold sortFields
  exact h.imp (fun hab => of_decide_eq_true hab)

/-- Two permuted field lists with duplicate-free keys sort identically:
the key-sorted arrangement is unique. -/
lemma sortFields_eq_of_perm {fs gs : List (String × JVal)} (hp : fs.Perm gs)
    (hnd : (fs.map Prod.fst).Nodup) : sortFields fs = sortFields gs := by
  have hperm : (sortFields fs).Perm (sortFields gs) :=
    ((fs.mergeSort_perm _).trans hp).trans (gs.mergeSort_perm _).symm
  have hnd1 : ((sortFields fs).map Prod.fst).Nodup :=
    (((fs.mergeSort_perm _).map Prod.fst).nodup_iff).mpr hnd
  have hnd2 : ((sortFields gs).map Prod.fst).Nodup :=
    ((hperm.map Prod.fst).nodup_iff).mp hnd1
  have hne1 : (sortFields fs).Pairwise (fun a b : String × JVal => a.1 ≠ b.1) :=
    (List.pairwise_map).mp hnd1
  have hne2 : (sortFields gs).Pairwise (fun a b : String × JVal => a.1 ≠ b.1) :=
    (List.pairwise_map).mp hnd2
  have hs1 : (sortFields fs).Pairwise (fun a b : String × JVal => a.1 < b.1) :=
    (sortFields_sorted fs).imp₂ (fun _ _ => lt_of_le_of_ne) hne1
  have hs2 : (sortFields gs).Pairwise (fun a b : String × JVal => a.1 < b.1) :=
    (sortFields_sorted gs).imp₂ (fun _ _ => lt_of_le_of_ne) hne2
  haveI : IsAntisymm (String × JVal) (fun a b => a.1 < b.1) :=
    ⟨fun a b h1 h2 => absurd h2 (not_lt.mpr h1.le)⟩
  exact List.eq_of_perm_of_sorted hperm hs1 hs2

/-- `hexDigitChar` of a value below 16 is a lowercase hex character. -/
lemma hexDigitChar_lower : ∀ n, n < 16 → isLowerHex (hexDigitChar n) = true := by decide

/-- The hex rendering of n bytes has 2n characters. -/
lemma hexPairs_length (l : List Nat) : ((l.map byteToHex).flatten).length = 2 * l.length := by
  induction l with
  | nil => simp
  | cons b t ih =>
    simp only [List.map_cons, List.flatten_cons, List.length_append, List.length_cons, ih,
      byteToHex]
    simp
    omega

/-- Every character of the hex rendering of a byte list is lowercase hex. -/
lemma hexPairs_lower {l : List Nat} (hb : ∀ b ∈ l, b < 256) :
    ∀ c ∈ (l.map byteToHex).flatten, isLowerHex c = true := by
  intro c hc
  simp only [List.mem_flatten, List.mem_map] at hc
  obtain ⟨chunk, ⟨b, hbmem, rfl⟩, hcchunk⟩ := hc
  have hb' := hb b hbmem
  simp only [byteToHex, List.mem_cons, List.not_mem_nil, or_false] at hcchunk
  rcases hcchunk with rfl | rfl
  · exact hexDigitChar_lower _ (by omega)
  · exact hexDigitChar_lower _ (by omega)

/-- `score_answer` always yields a value in [0,1]. -/
lemma score_answer_bounds (a : String) : 0 ≤ score_answer a ∧ score_answer a ≤ 1 := by
  unfold score_answer
  split_ifs <;> norm_num

/-- A list of rationals each at most 1 sums to at most its length. -/
lemma list_sum_le_length {l : List Rat} (h : ∀ x ∈ l, x ≤ 1) :
    l.sum ≤ (l.length : Rat) := by
  induction l with
  | nil => simp
  | cons a t ih =>
    have ha := h a (by simp)
    have ht := ih (fun x hx => h x (by simp [hx]))
    simp only [List.sum_cons, List.length_cons]
    push_cast
    linarith

/-- Each per-implementation-group percentage lies in [0,1]. -/
lemma igPerc_bounds (answers : String → Option String) (ids : List String) :
    0 ≤ igPerc answers ids ∧ igPerc answers ids ≤ 1 := by
  unfold igPerc
  split_ifs with h
  · norm_num
  · have hlen : 0 < (ids.length : Rat) := by
      exact_mod_cast List.length_pos.mpr h
    have hs : ∀ x ∈ scoresOf answers ids, 0 ≤ x ∧ x ≤ 1 := by
      intro x hx
      unfold scoresOf at hx
      simp only [List.mem_map] at hx
      obtain ⟨sid, _, rfl⟩ := hx
      exact score_answer_bounds _
    refine ⟨div_nonneg (List.sum_nonneg fun x hx => (hs x hx).1) hlen.le, ?_⟩
    rw [div_le_one hlen]
    have hle : (scoresOf answers ids).sum ≤ ((scoresOf answers ids).length : Rat) :=
      list_sum_le_length (fun x hx => (hs x hx).2)
    simpa [scoresOf] using hle

/-- The rule table only ever returns a level in {1,…,5}. -/
lemma cmmi_level_mem (p1 p2 p3 : Rat) :
    cmmi_level_from_igs p1 p2 p3 ∈ ([1, 2, 3, 4, 5] : List Nat) := by
  unfold cmmi_level_from_igs
  split_ifs <;> simp

/-- Unfolding `compute_maturity` through its `Option.map`. -/
lemma compute_maturity_some {answers : String → Option String}
    {sgs : List Safeguard} {m : List (Int × ControlEntry)} {avg : Rat}
    (h : compute_maturity answers sgs = some (m, avg)) :
    ∃ bc, group_by_control sgs = some bc ∧
      m = bc.map (fun p => (p.1, entryOf answers p.2)) := by
  unfold compute_maturity at h
  rw [Option.map_eq_some'] at h
  obtain ⟨bc, hbc, heq⟩ := h
  exact ⟨bc, hbc, by simpa using congrArg Prod.fst heq.symm⟩

/-- The percentage the source computes coincides with the spec's
mean-of-scores formula on every bucket. -/
lemma igPerc_eq_spec (answers : String → Option String) (ids : List String) :
    igPerc answers ids = spec_ig_percent answers ids := by
  unfold igPerc spec_ig_percent scoresOf
  by_cases h : ids = []
  · subst h; simp
  · rw [if_neg h, if_neg (by simpa [List.isEmpty_iff] using h)]
    have hmap : List.map (fun sid => score_answer ((answers sid).getD "Não implementado")) ids =
        List.map (fun sid =>
          match answers sid with
          | none => (0.0 : Rat)
          | some a => spec_score a) ids := by
      refine List.map_congr_left fun sid _ => ?_
      cases hans : answers sid with
      | none => simp only [hans, Option.getD]; rfl
      | some a => simp only [hans, Option.getD]; rfl
    rw [hmap]

end CIS

/-- C1: `cmmi_level_from_igs` agrees with the spec's ordered rule table at
every input, and in particular classifies (1.0, 0.5, 0.0) by rule 3 as
level 3. -/
theorem cmmi_table_matches_spec :
    (∀ p1 p2 p3 : Rat, CIS.cmmi_level_from_igs p1 p2 p3 = CIS.spec_rule_table p1 p2 p3) ∧
    CIS.cmmi_level_from_igs 1.0 0.5 0.0 = 3 := by
  constructor
  · intro p1 p2 p3
    unfold CIS.cmmi_level_from_igs CIS.spec_rule_table
    norm_num
  · norm_num [CIS.cmmi_level_from_igs]

/-- C10: on an empty safeguard list, `compute_maturity` returns an empty
maturity map and the out-of-range average level 0.0, without error. -/
theorem compute_maturity_empty_catalog (answers : String → Option String) :
    CIS.compute_maturity answers [] = some ([], 0.0) ∧ (0.0 : Rat) < 1 := by
  constructor
  · rfl
  · norm_num


/-- C2: every per-(control, implementation group) percentage produced by
`compute_maturity` is exactly the spec's arithmetic mean of the member
safeguard scores (Implementado → 1.0, Parcial → 0.5, Não se aplica → 1.0,
anything else or missing → 0.0), and an empty bucket yields 0.0 without
any division by zero. -/
theorem maturity_percent_is_mean (answers : String → Option String)
    (sgs : List CIS.Safeguard) (bc : List (Int × CIS.Bucket))
    (hg : CIS.group_by_control sgs = some bc)
    (m : List (Int × CIS.ControlEntry)) (avg : Rat)
    (hm : CIS.compute_maturity answers sgs = some (m, avg))
    (c : Int) (b : CIS.Bucket) (hmem : (c, b) ∈ bc) :
    (c, CIS.entryOf answers b) ∈ m ∧
    (CIS.entryOf answers b).ig1 = CIS.spec_ig_percent answers b.ig1 ∧
    (CIS.entryOf answers b).ig2 = CIS.spec_ig_percent answers b.ig2 ∧
    (CIS.entryOf answers b).ig3 = CIS.spec_ig_percent answers b.ig3 := by
  obtain ⟨bc', hbc', hmap⟩ := CIS.compute_maturity_some hm
  have hbc : bc' = bc := Option.some.inj (hbc' ▸ hg)
  subst hbc
  subst hmap
  refine ⟨List.mem_map_of_mem _ hmem, ?_, ?_, ?_⟩ <;>
    simp only [CIS.entryOf] <;> exact CIS.igPerc_eq_spec answers _

/-- C7: every control entry produced by `compute_maturity` has all three
implementation-group percentages in [0,1] and a CMMI level in
{1,2,3,4,5} (a safeguard with an `ig` outside IG1/IG2/IG3 makes
`compute_maturity` fail instead, so it never yields `some`). -/
theorem maturity_entry_bounds (answers : String → Option String)
    (sgs : List CIS.Safeguard) (m : List (Int × CIS.ControlEntry)) (avg : Rat)
    (hm : CIS.compute_maturity answers sgs = some (m, avg))
    (c : Int) (e : CIS.ControlEntry) (he : (c, e) ∈ m) :
    0 ≤ e.ig1 ∧ e.ig1 ≤ 1 ∧ 0 ≤ e.ig2 ∧ e.ig2 ≤ 1 ∧ 0 ≤ e.ig3 ∧ e.ig3 ≤ 1 ∧
    e.cmmi ∈ ([1, 2, 3, 4, 5] : List Nat) := by
  obtain ⟨bc, hbc, hmap⟩ := CIS.compute_maturity_some hm
  subst hmap
  simp only [List.mem_map] at he
  obtain ⟨⟨c', b⟩, hmem, heq⟩ := he
  have he' : e = CIS.entryOf answers b := by
    have := congrArg Prod.snd heq
    simpa using this.symm
  subst he'
  simp only [CIS.entryOf]
  exact ⟨(CIS.igPerc_bounds answers b.ig1).1, (CIS.igPerc_bounds answers b.ig1).2,
    (CIS.igPerc_bounds answers b.ig2).1, (CIS.igPerc_bounds answers b.ig2).2,
    (CIS.igPerc_bounds answers b.ig3).1, (CIS.igPerc_bounds answers b.ig3).2,
    CIS.cmmi_level_mem _ _ _⟩

/-- C8: the rule table is not monotone: any input with p1 ≥ 0.80 and
0.40 ≤ p2 < 0.50 falls through to the catch-all and gets level 2, while
the pointwise-smaller input (0.8, 0.5, 0) gets level 3 and the
pointwise-larger (0.8, 0.5, 0.45) drops back to level 2. -/
theorem cmmi_not_monotone (p1 p2 p3 : Rat)
    (h1 : 0.80 ≤ p1) (h2 : 0.40 ≤ p2) (h3 : p2 < 0.50) :
    CIS.cmmi_level_from_igs p1 p2 p3 = 2 ∧
    CIS.cmmi_level_from_igs 0.8 0.5 0 = 3 ∧
    CIS.cmmi_level_from_igs 0.8 0.5 0.45 = 2 ∧
    ((0.8 : Rat) ≤ 0.8 ∧ (0.5 : Rat) ≤ 0.5 ∧ (0 : Rat) ≤ 0.45) := by
  refine ⟨?_, by norm_num [CIS.cmmi_level_from_igs], by norm_num [CIS.cmmi_level_from_igs],
    by norm_num⟩
  have e1 : ¬(p1 < 0.2 ∧ p2 < 0.2) := by
    rintro ⟨hc, -⟩
    norm_num at hc h1
    linarith
  have e2 : ¬(p1 ≥ 0.80 ∧ p2 < 0.40) := by
    rintro ⟨-, hc⟩
    exact absurd h2 (not_le.mpr hc)
  have e3 : ¬(p1 ≥ 0.80 ∧ p2 ≥ 0.50 ∧ p3 < 0.40) := by
    rintro ⟨-, hc, -⟩
    exact absurd hc (not_le.mpr h3)
  have e4 : ¬(p1 ≥ 0.80 ∧ p2 ≥ 0.70 ∧ p3 ≥ 0.40) := by
    rintro ⟨-, hc, -⟩
    norm_num at hc h3
    linarith
  have e5 : p1 ≥ 0.5 := by
    norm_num at h1 ⊢
    linarith
  unfold CIS.cmmi_level_from_igs
  rw [if_neg e1, if_neg e2, if_neg e3, if_neg e4, if_pos e5]

/-- Witness for C2 at the spec's table-driven example. -/
theorem maturity_percent_is_mean_witness :
    CIS.group_by_control CIS.sgsEx = some CIS.bcEx ∧
    CIS.compute_maturity CIS.ansEx CIS.sgsEx = some ([((1 : Int), CIS.entryEx)], 3) ∧
    ((1 : Int), CIS.bEx) ∈ CIS.bcEx ∧
    (((1 : Int), CIS.entryOf CIS.ansEx CIS.bEx) ∈ [((1 : Int), CIS.entryEx)] ∧
     (CIS.entryOf CIS.ansEx CIS.bEx).ig1 = CIS.spec_ig_percent CIS.ansEx CIS.bEx.ig1 ∧
     (CIS.entryOf CIS.ansEx CIS.bEx).ig2 = CIS.spec_ig_percent CIS.ansEx CIS.bEx.ig2 ∧
     (CIS.entryOf CIS.ansEx CIS.bEx).ig3 = CIS.spec_ig_percent CIS.ansEx CIS.bEx.ig3) := by
  have hm : CIS.compute_maturity CIS.ansEx CIS.sgsEx = some ([((1 : Int), CIS.entryEx)], 3) := by
    simp [CIS.compute_maturity, CIS.group_by_control, CIS.insertSafeguard, CIS.bucketAdd,
      CIS.entryOf, CIS.igPerc, CIS.scoresOf, CIS.score_answer, CIS.cmmi_level_from_igs,
      CIS.ansEx, CIS.sgsEx, CIS.entryEx]
    norm_num
  exact ⟨rfl, hm, by decide,
    maturity_percent_is_mean CIS.ansEx CIS.sgsEx CIS.bcEx rfl [((1 : Int), CIS.entryEx)] 3 hm
      1 CIS.bEx (by decide)⟩

/-- Witness for C7 at the spec's table-driven example. -/
theorem maturity_entry_bounds_witness :
    CIS.compute_maturity CIS.ansEx CIS.sgsEx = some ([((1 : Int), CIS.entryEx)], 3) ∧
    ((1 : Int), CIS.entryEx) ∈ [((1 : Int), CIS.entryEx)] ∧
    (0 ≤ CIS.entryEx.ig1 ∧ CIS.entryEx.ig1 ≤ 1 ∧ 0 ≤ CIS.entryEx.ig2 ∧
     CIS.entryEx.ig2 ≤ 1 ∧ 0 ≤ CIS.entryEx.ig3 ∧ CIS.entryEx.ig3 ≤ 1 ∧
     CIS.entryEx.cmmi ∈ ([1, 2, 3, 4, 5] : List Nat)) := by
  have hm : CIS.compute_maturity CIS.ansEx CIS.sgsEx = some ([((1 : Int), CIS.entryEx)], 3) := by
    simp [CIS.compute_maturity, CIS.group_by_control, CIS.insertSafeguard, CIS.bucketAdd,
      CIS.entryOf, CIS.igPerc, CIS.scoresOf, CIS.score_answer, CIS.cmmi_level_from_igs,
      CIS.ansEx, CIS.sgsEx, CIS.entryEx]
    norm_num
  exact ⟨hm, List.mem_singleton.mpr rfl,
    maturity_entry_bounds CIS.ansEx CIS.sgsEx [((1 : Int), CIS.entryEx)] 3 hm
      1 CIS.entryEx (List.mem_singleton.mpr rfl)⟩

/-- Witness for C8 at the concrete gap input (0.8, 0.45, 0). -/
theorem cmmi_not_monotone_witness :
    ((0.80 : Rat) ≤ 0.8 ∧ (0.40 : Rat) ≤ 0.45 ∧ (0.45 : Rat) < 0.50) ∧
    (CIS.cmmi_level_from_igs 0.8 0.45 0 = 2 ∧
     CIS.cmmi_level_from_igs 0.8 0.5 0 = 3 ∧
     CIS.cmmi_level_from_igs 0.8 0.5 0.45 = 2 ∧
     ((0.8 : Rat) ≤ 0.8 ∧ (0.5 : Rat) ≤ 0.5 ∧ (0 : Rat) ≤ 0.45)) :=
  ⟨by norm_num,
   cmmi_not_monotone 0.8 0.45 0 (by norm_num) (by norm_num) (by norm_num)⟩

/-- C9: for every byte string, `sha256_hex` and `keccak256_hex` return the
fixed prefix "0x" followed by exactly 64 lowercase hexadecimal characters
(the hex encoding of the 32-byte digest supplied by the external hash
library). -/
theorem hash_hex_format (digestFn : List Nat → List Nat) (data : List Nat)
    (hlen : (digestFn data).length = 32) (hbytes : ∀ b ∈ digestFn data, b < 256) :
    (CIS.sha256_hex digestFn data).data =
      '0' :: 'x' :: (CIS.hexdigest (digestFn data)).data ∧
    (CIS.keccak256_hex digestFn data).data =
      '0' :: 'x' :: (CIS.hexdigest (digestFn data)).data ∧
    (CIS.hexdigest (digestFn data)).data.length = 64 ∧
    ∀ c ∈ (CIS.hexdigest (digestFn data)).data, CIS.isLowerHex c = true := by
  refine ⟨?_, ?_, ?_, ?_⟩
  · simp [CIS.sha256_hex, String.data_append]
  · simp [CIS.keccak256_hex, String.data_append]
  · show ((digestFn data).map CIS.byteToHex).flatten.length = 64
    rw [CIS.hexPairs_length, hlen]
  · show ∀ c ∈ ((digestFn data).map CIS.byteToHex).flatten, CIS.isLowerHex c = true
    exact CIS.hexPairs_lower hbytes

/-- Witness for C9 at the constant zero digest on empty input. -/
theorem hash_hex_format_witness :
    ((fun _ : List Nat => List.replicate 32 0) []).length = 32 ∧
    (∀ b ∈ (fun _ : List Nat => List.replicate 32 0) [], b < 256) ∧
    ((CIS.sha256_hex (fun _ => List.replicate 32 0) []).data =
       '0' :: 'x' :: (CIS.hexdigest (List.replicate 32 0)).data ∧
     (CIS.keccak256_hex (fun _ => List.replicate 32 0) []).data =
       '0' :: 'x' :: (CIS.hexdigest (List.replicate 32 0)).data ∧
     (CIS.hexdigest (List.replicate 32 0)).data.length = 64 ∧
     ∀ c ∈ (CIS.hexdigest (List.replicate 32 0)).data, CIS.isLowerHex c = true) :=
  ⟨by decide, by decide,
   hash_hex_format (fun _ => List.replicate 32 0) [] (by decide) (by decide)⟩

/-- C4: `normalize_hash` is a validation predicate: it returns the "0x"
prefix plus the lowercased content exactly when the stripped,
prefix-removed content is 64 hex characters, returns `none` on every
other shape, accepts "  0X" + 64 uppercase hex + "'", and rejects a
63-hex-character input and an input with a non-hex character. -/
theorem normalize_hash_validation (nfkc : List Char → List Char) (h : List Char)
    (hne : h ≠ []) :
    ((CIS.hashCore nfkc h).length = 64 ∧ (CIS.hashCore nfkc h).all CIS.isHexChar = true →
      CIS.normalize_hash nfkc h =
        some ('0' :: 'x' :: (CIS.hashCore nfkc h).map Char.toLower)) ∧
    (¬((CIS.hashCore nfkc h).length = 64 ∧ (CIS.hashCore nfkc h).all CIS.isHexChar = true) →
      CIS.normalize_hash nfkc h = none) ∧
    CIS.normalize_hash id ([' ', ' ', '0', 'X'] ++ List.replicate 64 'A' ++ ['\'']) =
      some ('0' :: 'x' :: List.replicate 64 'a') ∧
    CIS.normalize_hash id (List.replicate 63 'a') = none ∧
    CIS.normalize_hash id (List.replicate 63 'a' ++ ['g']) = none := by
  refine ⟨?_, ?_, by decide, by decide, by decide⟩
  · intro hc
    simp only [CIS.normalize_hash, if_neg hne]
    rw [if_pos hc]
  · intro hc
    simp only [CIS.normalize_hash, if_neg hne]
    rw [if_neg hc]

/-- Witness for C4 at the single-character input "0". -/
theorem normalize_hash_validation_witness :
    (['0'] : List Char) ≠ [] ∧
    (((CIS.hashCore id ['0']).length = 64 ∧
        (CIS.hashCore id ['0']).all CIS.isHexChar = true →
      CIS.normalize_hash id ['0'] =
        some ('0' :: 'x' :: (CIS.hashCore id ['0']).map Char.toLower)) ∧
     (¬((CIS.hashCore id ['0']).length = 64 ∧
        (CIS.hashCore id ['0']).all CIS.isHexChar = true) →
      CIS.normalize_hash id ['0'] = none) ∧
     CIS.normalize_hash id ([' ', ' ', '0', 'X'] ++ List.replicate 64 'A' ++ ['\'']) =
       some ('0' :: 'x' :: List.replicate 64 'a') ∧
     CIS.normalize_hash id (List.replicate 63 'a') = none ∧
     CIS.normalize_hash id (List.replicate 63 'a' ++ ['g']) = none) :=
  ⟨by decide, normalize_hash_validation id ['0'] (by decide)⟩

/-- C5: a failed registration whose exception text matches the duplicate
patterns is surfaced as the AlreadyRegistered warning, any other failure
as a generic one; in particular the ledger's duplicate revert reason is
classified AlreadyRegistered, not as a generic failure. -/
theorem register_duplicate_classified (msg good : String)
    (hmsg : CIS.isAlreadyRegisteredMsg msg = true)
    (hgood : CIS.isAlreadyRegisteredMsg good = false) :
    CIS.handle_register (.error msg) = .alreadyRegisteredWarning ∧
    CIS.handle_register (.error good) = .genericFailure good ∧
    CIS.handle_register (.error CIS.duplicateRevertMsg) = .alreadyRegisteredWarning ∧
    CIS.handle_register (.error CIS.duplicateRevertMsg) ≠
      .genericFailure CIS.duplicateRevertMsg := by
  refine ⟨?_, ?_, by decide, by decide⟩
  · simp [CIS.handle_register, hmsg]
  · simp [CIS.handle_register, hgood]

/-- Witness for C5 with a matching and a non-matching exception text. -/
theorem register_duplicate_classified_witness :
    CIS.isAlreadyRegisteredMsg "Hash ja registrado" = true ∧
    CIS.isAlreadyRegisteredMsg "connection timeout" = false ∧
    (CIS.handle_register (.error "Hash ja registrado") = .alreadyRegisteredWarning ∧
     CIS.handle_register (.error "connection timeout") =
       .genericFailure "connection timeout" ∧
     CIS.handle_register (.error CIS.duplicateRevertMsg) = .alreadyRegisteredWarning ∧
     CIS.handle_register (.error CIS.duplicateRevertMsg) ≠
       .genericFailure CIS.duplicateRevertMsg) :=
  ⟨by decide, by decide,
   register_duplicate_classified "Hash ja registrado" "connection timeout"
     (by decide) (by decide)⟩

/-- C6: `ipfs_upload_json_auto` selects exactly one provider by
configuration presence in the fixed order Pinata, NFT.Storage (token
starting with "eyJ"), Web3.Storage, raises the no-provider error when
none is configured, and its result depends only on the selected
provider's call, whose failure propagates unchanged. -/
theorem ipfs_provider_selection (env : CIS.IpfsEnv)
    (call : CIS.Provider → Except String String) :
    CIS.ipfs_upload_json_auto env call =
      match CIS.spec_select env with
      | some p => (call p).map (fun cid => (cid, "ipfs://" ++ cid, CIS.provider_label p))
      | none => .error CIS.no_provider_msg := by
  unfold CIS.ipfs_upload_json_auto CIS.spec_select
  split_ifs <;> rfl

/-- C3: two report objects with the same fields regardless of insertion
order serialize (via sorted-key, separator-free `json_dumps`) to the same
characters, hence to byte-identical UTF-8 and identical `sha256_hex`
fingerprints. -/
theorem canonical_serialization_invariant (fs1 fs2 : List (String × CIS.JVal))
    (hperm : fs1.Perm fs2) (hnodup : (fs1.map Prod.fst).Nodup) :
    CIS.json_dumps (.obj fs1) = CIS.json_dumps (.obj fs2) ∧
    CIS.utf8Encode (CIS.json_dumps (.obj fs1)) =
      CIS.utf8Encode (CIS.json_dumps (.obj fs2)) ∧
    ∀ digestFn : List Nat → List Nat,
      CIS.sha256_hex digestFn (CIS.utf8Encode (CIS.json_dumps (.obj fs1))) =
        CIS.sha256_hex digestFn (CIS.utf8Encode (CIS.json_dumps (.obj fs2))) := by
  have hcf : (CIS.canonFields fs1).Perm (CIS.canonFields fs2) := by
    rw [CIS.canonFields_eq_map, CIS.canonFields_eq_map]
    exact hperm.map _
  have hnd : ((CIS.canonFields fs1).map Prod.fst).Nodup := by
    rw [CIS.canonFields_eq_map, List.map_map]
    simpa [Function.comp] using hnodup
  have hkey : CIS.json_dumps (.obj fs1) = CIS.json_dumps (.obj fs2) := by
    simp only [CIS.json_dumps, CIS.canonSort]
    rw [CIS.sortFields_eq_of_perm hcf hnd]
  exact ⟨hkey, by rw [hkey], fun f => by rw [hkey]⟩

/-- Witness for C3: the two-field object built in both insertion orders. -/
theorem canonical_serialization_invariant_witness :
    CIS.fsEx1.Perm CIS.fsEx2 ∧ (CIS.fsEx1.map Prod.fst).Nodup ∧
    (CIS.json_dumps (.obj CIS.fsEx1) = CIS.json_dumps (.obj CIS.fsEx2) ∧
     CIS.utf8Encode (CIS.json_dumps (.obj CIS.fsEx1)) =
       CIS.utf8Encode (CIS.json_dumps (.obj CIS.fsEx2)) ∧
     ∀ digestFn : List Nat → List Nat,
       CIS.sha256_hex digestFn (CIS.utf8Encode (CIS.json_dumps (.obj CIS.fsEx1))) =
         CIS.sha256_hex digestFn (CIS.utf8Encode (CIS.json_dumps (.obj CIS.fsEx2)))) :=
  ⟨List.Perm.swap _ _ _, by decide,
   canonical_serialization_invariant CIS.fsEx1 CIS.fsEx2 (List.Perm.swap _ _ _) (by decide)⟩
